import Mathlib

/-!
Shallow embedding of the ink stroke-mesh core:
  src/engine/geometry/mesh/mesh.cc   (Mesh, OptimizedMesh, ShaderMetadata)
  src/engine/geometry/line/fat_line.h (FatLine::AppendVertex)

glm floating-point scalars are modelled as exact rationals (ℚ); glm 4x4
matrices are modelled by their affine action on 2-D points, which is the
only way mesh.cc uses them (positions are 2-D, `ObjectPosToWorld` and
`geometry::Transform` act on vec2).  Machine indices (uint16_t/uint32_t)
are modelled as ℕ with explicit reductions modulo 2^16 / 2^32 where the
C++ performs a narrowing conversion.
-/

namespace Ink

/-- A 2-D point / vector, modelling glm::vec2. -/
abbrev Q2 : Type := ℚ × ℚ

/-- An RGBA color, modelling glm::vec4 color values. -/
structure Color where
  r : ℚ
  g : ℚ
  b : ℚ
  a : ℚ
deriving DecidableEq, Repr

/-- Componentwise product, modelling glm vec4 operator* as used in
`m.verts[i].color * mul_color_modifier`. -/
def Color.cmul (x y : Color) : Color :=
  ⟨x.r * y.r, x.g * y.g, x.b * y.b, x.a * y.a⟩

/-- Componentwise sum, modelling glm vec4 operator+ as used in
`... + add_color_modifier`. -/
def Color.cadd (x y : Color) : Color :=
  ⟨x.r + y.r, x.g + y.g, x.b + y.b, x.a + y.a⟩

instance : Inhabited Color := ⟨⟨1, 1, 1, 1⟩⟩

/-- Modelled from the spec: the glm::mat4 `object_matrix` as mesh.cc uses it,
i.e. an affine map on 2-D positions (linear part `a b / c d` plus
translation `tx ty`).  glm::inverse and mat4 multiplication are modelled by
the affine inverse and composition below. -/
structure Mat where
  a : ℚ
  b : ℚ
  tx : ℚ
  c : ℚ
  d : ℚ
  ty : ℚ
deriving DecidableEq, Repr

/-- Apply the affine map to a point: models `geometry::Transform(vec2, mat4)`
(a point transform, w = 1). -/
def Mat.apply (m : Mat) (p : Q2) : Q2 :=
  (m.a * p.1 + m.b * p.2 + m.tx, m.c * p.1 + m.d * p.2 + m.ty)

/-- Matrix product `m * n` (first apply `n`, then `m`). -/
def Mat.comp (m n : Mat) : Mat :=
  ⟨m.a * n.a + m.b * n.c, m.a * n.b + m.b * n.d, m.a * n.tx + m.b * n.ty + m.tx,
   m.c * n.a + m.d * n.c, m.c * n.b + m.d * n.d, m.c * n.tx + m.d * n.ty + m.ty⟩

/-- Determinant of the linear part. -/
def Mat.det (m : Mat) : ℚ := m.a * m.d - m.b * m.c

/-- Models glm::inverse on such an affine matrix.  On a singular matrix glm
produces undefined values (division by zero); the model returns the input
unchanged in that case. -/
def Mat.inv (m : Mat) : Mat :=
  if m.det = 0 then m
  else
    ⟨m.d / m.det, -m.b / m.det, (m.b * m.ty - m.d * m.tx) / m.det,
     -m.c / m.det, m.a / m.det, (m.c * m.tx - m.a * m.ty) / m.det⟩

/-- The identity transform (glm::mat4(1)). -/
def Mat.ident : Mat := ⟨1, 0, 0, 0, 1, 0⟩

/-- Modelled from the spec: `TextureInfo` (texture reference metadata) is not
under src/; carried opaquely, deep-copied on copy. -/
structure TextureInfo where
  uri : String
deriving DecidableEq, Repr

/-- Modelled from the spec: `Vertex` (vertex.h is not under src/): 2-D
position, RGBA color, optional texture coordinate.  `Vertex v(p)` constructs
a vertex at position `p` with default color/texture coordinate. -/
structure Vertex where
  position : Q2
  color : Color
  texture_coords : Q2
deriving DecidableEq, Repr

instance : Inhabited Vertex := ⟨⟨(0, 0), default, (0, 0)⟩⟩

/-- Models the C++ `Vertex v(p)` constructor used in FatLine::AppendVertex. -/
def Vertex.ofPos (p : Q2) : Vertex := ⟨p, default, (0, 0)⟩

/-- Modelled from the spec: `Rect` (primitives/rect.h is not under src/), the
axis-aligned rectangle with corners `(x0,y0)` (low) and `(x1,y1)` (high). -/
structure Rect where
  x0 : ℚ
  y0 : ℚ
  x1 : ℚ
  y1 : ℚ
deriving DecidableEq, Repr

/-- Models `Rect::CreateAtPoint`: the degenerate rectangle at one point. -/
def Rect.createAtPoint (p : Q2) : Rect := ⟨p.1, p.2, p.1, p.2⟩

/-- Join (union-envelope) of two rectangles. -/
def Rect.join (r s : Rect) : Rect :=
  ⟨min r.x0 s.x0, min r.y0 s.y0, max r.x1 s.x1, max r.y1 s.y1⟩

/-- Modelled from the spec: `geometry::Envelope` (algorithms/envelope.h is not
under src/): the axis-aligned bounding rectangle of a vertex sequence's
positions (glossary: "Envelope: axis-aligned bounding rectangle of a point
set").  The envelope of an empty sequence is the empty rectangle at the
origin. -/
def envelopeOf (verts : List Vertex) : Rect :=
  match verts with
  | [] => ⟨0, 0, 0, 0⟩
  | v :: rest =>
    rest.foldl (fun r w => r.join (Rect.createAtPoint w.position))
      (Rect.createAtPoint v.position)

/-- Modelled from the spec: `geometry::Transform(Rect, mat4)` (not under
src/): the envelope of the transformed corner points. -/
def Rect.transformBy (r : Rect) (m : Mat) : Rect :=
  (Rect.createAtPoint (m.apply (r.x0, r.y0))).join
    (Rect.createAtPoint (m.apply (r.x1, r.y1)))

/-- Modelled from the spec: `util::AssignOrJoinTo(rect, opt_rect)` (not under
src/): assign if the optional is empty, else join into it. -/
def assignOrJoinTo (r : Rect) : Option Rect → Option Rect
  | none => some r
  | some r0 => some (r0.join r)

/-- Modelled from the spec: `geometry::Triangle::SignedArea` (not under
src/): the signed area of the triangle `(p1, p2, p3)`, positive for
counter-clockwise winding (glossary: "Winding: the rotational order (signed
area sign) of a triangle's vertices"). -/
def signedArea (p1 p2 p3 : Q2) : ℚ :=
  ((p2.1 - p1.1) * (p3.2 - p1.2) - (p2.2 - p1.2) * (p3.1 - p1.1)) / 2

/-- mesh.cc kMax16: `std::numeric_limits<uint16_t>::max()` = 65535. -/
def kMax16 : ℕ := 65535

/-- Narrowing conversion of an index value to uint16_t. -/
def u16Mod (n : ℕ) : ℕ := n % 65536

/-- Narrowing/wrapping of an index value at uint32_t width. -/
def u32Mod (n : ℕ) : ℕ := n % 4294967296

/-- mesh.cc NormalizeTriangleHelper: for each consecutive index triple whose
triangle (looked up through `pos`) has negative signed area, swap the
second and third index.  A trailing fragment of fewer than three indices is
ruled out by the C++ ASSERT (size % 3 == 0) and left unchanged here. -/
def normalizeTriangleHelper (pos : ℕ → Q2) : List ℕ → List ℕ
  | a :: b :: c :: rest =>
    if signedArea (pos a) (pos b) (pos c) < 0 then
      a :: c :: b :: normalizeTriangleHelper pos rest
    else
      a :: b :: c :: normalizeTriangleHelper pos rest
  | l => l

/-- mesh.h/mesh.cc Mesh (the "Raw Mesh"): vertices, uint32 indices,
object-to-world matrix, optional texture.  `combined_idx`,
`backend_vert_data` and `shader_metadata` play no role in the verified
operations and are omitted. -/
structure Mesh where
  verts : List Vertex
  idx : List ℕ
  object_matrix : Mat
  texture : Option TextureInfo
deriving DecidableEq, Repr

instance : Inhabited Mesh := ⟨⟨[], [], Mat.ident, none⟩⟩

/-- The position lookup `verts[index].position` used by
Mesh::NormalizeTriangleOrientation (total via a default vertex; the C++
indexing is undefined out of range). -/
def Mesh.posAt (m : Mesh) (i : ℕ) : Q2 := (m.verts.getD i default).position

/-- mesh.cc Mesh::NormalizeTriangleOrientation. -/
def Mesh.normalizeTriangleOrientation (m : Mesh) : Mesh :=
  { m with idx := normalizeTriangleHelper m.posAt m.idx }

/-- mesh.cc Mesh::Append: transform the incoming vertices by
`inverse(object_matrix) * other.object_matrix`, concatenate, and append the
incoming indices offset by the pre-append vertex count (stored back at
uint32 width). -/
def Mesh.append (m other : Mesh) : Mesh :=
  let startidx := m.verts.length
  let t := m.object_matrix.inv.comp other.object_matrix
  { m with
    verts := m.verts ++
      other.verts.map (fun ov => { ov with position := t.apply ov.position }),
    idx := m.idx ++ other.idx.map (fun i => u32Mod (i + startidx)) }

/-- mesh.cc Mesh::Deindex: no-op when unindexed, otherwise one vertex entry
per index occurrence and the index sequence is cleared. -/
def Mesh.deindex (m : Mesh) : Mesh :=
  if m.idx = [] then m
  else
    { m with
      verts := m.idx.map (fun i => m.verts.getD i default),
      idx := [] }

/-- mesh.cc Mesh::GenIndex: resize the index sequence to the vertex count and
fill it with 0..n-1 (std::iota). -/
def Mesh.genIndex (m : Mesh) : Mesh :=
  { m with idx := List.range m.verts.length }

/-- mesh.cc Mesh::Has16BitIndex: `verts.size() < kMax16`. -/
def Mesh.has16BitIndex (m : Mesh) : Bool := m.verts.length < kMax16

/-- mesh.cc Mesh::IndexSize. -/
def Mesh.indexSize (m : Mesh) : ℕ := m.idx.length

/-- mesh.cc Mesh::Index16: the conversion
`std::vector<uint16_t>(idx.begin(), idx.end())` narrows each index to
uint16_t.  The preceding ASSERT/SLOG on `!Has16BitIndex()` is debug
logging only; the conversion happens regardless. -/
def Mesh.index16 (m : Mesh) : List ℕ := m.idx.map u16Mod

/-- mesh.h ShaderType (the values matched by OptimizedMesh::VertexFormat). -/
inductive ShaderType
  | ColoredVertShader
  | SingleColorShader
  | EraseShader
  | TexturedVertShader
deriving DecidableEq, Repr

/-- mesh.h VertFormat: the packed vertex layouts selected per shader type. -/
inductive VertFormat
  | x12y12
  | x11a7r6y11g7b6
  | x11a7r6y11g7b6u12v12
deriving DecidableEq, Repr

/-- mesh.cc OptimizedMesh::VertexFormat: the fixed shader-type → vertex
format table. -/
def vertexFormat (shader_type : ShaderType) : VertFormat :=
  match shader_type with
  | .ColoredVertShader => VertFormat.x11a7r6y11g7b6
  | .SingleColorShader => VertFormat.x12y12
  | .EraseShader => VertFormat.x12y12
  | .TexturedVertShader => VertFormat.x11a7r6y11g7b6u12v12

/-- Modelled from the spec: the packed format's representable coordinate
range (12-bit x/y for x12y12, 11-bit x/y for the color-carrying formats). -/
def VertFormat.maxCoord : VertFormat → ℚ
  | .x12y12 => 4095
  | .x11a7r6y11g7b6 => 2047
  | .x11a7r6y11g7b6u12v12 => 2047

/-- Modelled from the spec: `PackedVertList` (packed_vert_list.h/.cc is not
under src/): the lossily quantized vertex buffer.  Quantized vertices are
stored with integer-valued positions. -/
structure PackedVertList where
  fmt : VertFormat
  pverts : List Vertex
deriving DecidableEq, Repr

/-- Modelled from the spec: `PackedVertList::CalcTransformForFormat`: the
quantization transform mapping the envelope into the format's representable
numeric range `[0, maxCoord]` on each axis (spec §4.3 step 3).  A degenerate
envelope axis gets unit scale. -/
def calcTransformForFormat (envelope : Rect) (fmt : VertFormat) : Mat :=
  let w := envelope.x1 - envelope.x0
  let h := envelope.y1 - envelope.y0
  let sx := if w = 0 then 1 else fmt.maxCoord / w
  let sy := if h = 0 then 1 else fmt.maxCoord / h
  ⟨sx, 0, -(sx * envelope.x0), 0, sy, -(sy * envelope.y0)⟩

/-- Rounding a coordinate to the integer lattice of the packed format. -/
def quantize (q : ℚ) : ℚ := ((round q : ℤ) : ℚ)

/-- Modelled from the spec: `PackedVertList::PackVerts`: push every vertex
position through the quantization transform and round it into the packed
lattice (spec: "pack every vertex through it"; lossy). -/
def packVerts (verts : List Vertex) (m : Mat) (fmt : VertFormat) :
    PackedVertList :=
  ⟨fmt, verts.map fun v =>
    { v with
      position := (quantize (m.apply v.position).1,
                   quantize (m.apply v.position).2) }⟩

/-- Modelled from the spec: `PackedVertList::UnpackVertex(i, &v)`: recover
the floating-point vertex stored at slot `i` (total via a default vertex;
out-of-range unpack is undefined in the C++). -/
def PackedVertList.unpackVertex (pvl : PackedVertList) (i : ℕ) : Vertex :=
  pvl.pverts.getD i default

/-- Modelled from the spec: `PackedVertList::size()`. -/
def PackedVertList.size (pvl : PackedVertList) : ℕ := pvl.pverts.length

/-- Modelled from the spec: `PackedVertList::Clear()`: discard the
host-side packed vertex buffer. -/
def PackedVertList.clear (pvl : PackedVertList) : PackedVertList :=
  ⟨pvl.fmt, []⟩

/-- mesh.h: the `absl::variant<std::vector<uint16_t>, std::vector<uint32_t>>`
index storage of OptimizedMesh. -/
inductive IdxVariant
  | i16 (l : List ℕ)
  | i32 (l : List ℕ)
deriving DecidableEq, Repr

/-- mesh.h/mesh.cc OptimizedMesh: shader type, packed vertices, texture,
object-to-world matrix, base color, color modifiers, mesh-space bounding
rectangle, and the 16-or-32-bit index variant. -/
structure OptimizedMesh where
  type : ShaderType
  verts : PackedVertList
  texture : Option TextureInfo
  object_matrix : Mat
  color : Color
  mul_color_modifier : Color
  add_color_modifier : Color
  mbr : Rect
  idx_ : IdxVariant
deriving DecidableEq, Repr

instance : Inhabited OptimizedMesh :=
  ⟨⟨ShaderType.SingleColorShader, ⟨VertFormat.x12y12, []⟩, none, Mat.ident,
    default, default, default, ⟨0, 0, 0, 0⟩, IdxVariant.i16 []⟩⟩

/-- Whether the 16-bit index variant was chosen. -/
def OptimizedMesh.is16Bit (om : OptimizedMesh) : Bool :=
  match om.idx_ with
  | .i16 _ => true
  | .i32 _ => false

/-- The stored index sequence, whichever variant holds it. -/
def OptimizedMesh.indexList (om : OptimizedMesh) : List ℕ :=
  match om.idx_ with
  | .i16 l => l
  | .i32 l => l

/-- mesh.cc OptimizedMesh::IndexSize. -/
def OptimizedMesh.indexSize (om : OptimizedMesh) : ℕ :=
  match om.idx_ with
  | .i32 l => l.length
  | .i16 l => l.length

/-- mesh.cc OptimizedMesh::IndexAt (`.at(n)` throws out of range, modelled
as `Option`). -/
def OptimizedMesh.indexAt (om : OptimizedMesh) (n : ℕ) : Option ℕ :=
  match om.idx_ with
  | .i32 l => l.get? n
  | .i16 l => l.get? n

/-- mesh.cc OptimizedMesh::Validate: nothing to check when the index count
is zero, otherwise the index count must be divisible by 3. -/
def OptimizedMesh.validate (om : OptimizedMesh) : Bool :=
  om.indexSize == 0 || om.indexSize % 3 == 0

/-- mesh.cc OptimizedMesh::Index16: returns the 16-bit buffer, or fails
(RUNTIME_ERROR "Cannot represent this optimized mesh's index in 16 bits",
modelled as `none`) when the 32-bit variant is held. -/
def OptimizedMesh.index16 (om : OptimizedMesh) : Option (List ℕ) :=
  match om.idx_ with
  | .i16 l => some l
  | .i32 _ => none

/-- mesh.cc OptimizedMesh::ClearCpuMemoryVerts: reset the index variant to
an empty 16-bit vector and clear the packed vertex buffer; everything else
is kept. -/
def OptimizedMesh.clearCpuMemoryVerts (om : OptimizedMesh) : OptimizedMesh :=
  { om with idx_ := IdxVariant.i16 [], verts := om.verts.clear }

/-- mesh.cc OptimizedMesh::OptimizedMesh(type, mesh, envelope): the packing
constructor.  The EXPECT preconditions (non-empty index sequence divisible
by 3, non-empty vertex sequence) are contract failures, modelled as `none`.
Index values narrow to uint16_t when the 16-bit variant is chosen; winding
is then re-normalized against the quantized (packed) positions.  The C++
locals fmt/m/pv are inlined. -/
def OptimizedMesh.ofMeshEnv (type : ShaderType) (mesh : Mesh)
    (envelope : Rect) : Option OptimizedMesh :=
  if mesh.idx ≠ [] ∧ mesh.idx.length % 3 = 0 ∧ mesh.verts ≠ [] then
    some
      { type := type
        verts := packVerts mesh.verts
          (calcTransformForFormat envelope (vertexFormat type))
          (vertexFormat type)
        texture := mesh.texture
        object_matrix := mesh.object_matrix.comp
          (calcTransformForFormat envelope (vertexFormat type)).inv
        color := (mesh.verts.headD default).color
        mul_color_modifier := ⟨1, 1, 1, 1⟩
        add_color_modifier := ⟨0, 0, 0, 0⟩
        mbr := (envelopeOf mesh.verts).transformBy
          (calcTransformForFormat envelope (vertexFormat type))
        idx_ :=
          if mesh.verts.length < kMax16 then
            IdxVariant.i16 (normalizeTriangleHelper
              (fun i => ((packVerts mesh.verts
                (calcTransformForFormat envelope (vertexFormat type))
                (vertexFormat type)).unpackVertex i).position)
              (mesh.idx.map u16Mod))
          else
            IdxVariant.i32 (normalizeTriangleHelper
              (fun i => ((packVerts mesh.verts
                (calcTransformForFormat envelope (vertexFormat type))
                (vertexFormat type)).unpackVertex i).position)
              mesh.idx) }
  else none

/-- mesh.cc OptimizedMesh::OptimizedMesh(type, mesh): delegates with the
mesh's own envelope. -/
def OptimizedMesh.ofMesh (type : ShaderType) (mesh : Mesh) :
    Option OptimizedMesh :=
  OptimizedMesh.ofMeshEnv type mesh (envelopeOf mesh.verts)

/-- mesh.cc OptimizedMesh::ToMesh: unpack every vertex, override the color
with the base color for SingleColorShader, apply the multiplicative and
additive color modifiers, copy the index sequence, the object matrix and a
deep copy of the texture. -/
def OptimizedMesh.toMesh (om : OptimizedMesh) : Mesh :=
  { verts :=
      (List.range om.verts.size).map (fun i =>
        let v := om.verts.unpackVertex i
        let v :=
          if om.type = ShaderType.SingleColorShader then
            { v with color := om.color }
          else v
        { v with
          color := (v.color.cmul om.mul_color_modifier).cadd
            om.add_color_modifier })
    idx := om.indexList
    object_matrix := om.object_matrix
    texture := om.texture }

/-- mesh.cc OptimizedMesh::WorldBounds. -/
def OptimizedMesh.worldBounds (om : OptimizedMesh) : Rect :=
  om.mbr.transformBy om.object_matrix

/-- Modelled from the spec: `TipSizeScreen` (brushes/size/tip_size_screen.h
is not under src/): two screen-space radii; `radius` is the one passed to
the vertex callback. -/
structure TipSizeScreen where
  radius : ℚ
  radius_minor : ℚ
deriving DecidableEq, Repr

/-- Modelled from the spec: `input::StylusState` (not under src/); only the
pressure field reaches the vertex callback. -/
structure StylusState where
  pressure : ℚ
deriving DecidableEq, Repr

/-- The vertex enrichment callback type (fat_line.h FatLine::VertAddFn):
receives center point, radius, time, pressure and the vertex to enrich.
The C++ mutates the vertex through a pointer; the model returns the
enriched vertex. -/
def VertAddFn : Type := Q2 → ℚ → ℚ → ℚ → Vertex → Vertex

/-- fat_line.h FatLine: the state read by AppendVertex.  The side/cap vertex
sequences are passed to AppendVertex by pointer in the C++ and appear as an
explicit argument in the model; fields not read by AppendVertex are
omitted. -/
structure FatLine where
  on_add_vert : Option VertAddFn
  min_screen_travel_threshold : ℚ
  tip_size : TipSizeScreen
  last_extrude_time : ℚ
  stylus_state : StylusState
  last_center : Q2

/-- fat_line.h FatLine::AppendVertex: construct `Vertex v(p)`, pass it
through the enrichment callback when one is set (with the last accepted
center, the tip radius, the last extrude time and the stylus pressure),
push it onto the target sequence, and join its point-rectangle into the
bounding rectangle. -/
def FatLine.appendVertex (fl : FatLine) (dst : List Vertex) (p : Q2)
    (bounding_rect : Option Rect) : List Vertex × Option Rect :=
  let v := Vertex.ofPos p
  let v :=
    match fl.on_add_vert with
    | some f =>
      f fl.last_center fl.tip_size.radius fl.last_extrude_time
        fl.stylus_state.pressure v
    | none => v
  (dst ++ [v], assignOrJoinTo (Rect.createAtPoint v.position) bounding_rect)

/-! Concrete sample inputs used by the witness and counterexample
theorems below. -/

/-- Concrete mesh for the C5 witness: a clockwise (negative-area) triangle. -/
def meshC5 : Mesh :=
  ⟨[Vertex.ofPos (0, 0), Vertex.ofPos (1, 0), Vertex.ofPos (0, 1)],
   [0, 2, 1], Mat.ident, none⟩

/-- Concrete OptimizedMesh with a 16-bit index variant, for witnesses. -/
def omSample16 : OptimizedMesh :=
  { type := ShaderType.SingleColorShader
    verts := ⟨VertFormat.x12y12, [Vertex.ofPos (0, 0)]⟩
    texture := none
    object_matrix := Mat.ident
    color := default
    mul_color_modifier := default
    add_color_modifier := default
    mbr := ⟨0, 0, 0, 0⟩
    idx_ := IdxVariant.i16 [0, 0, 0] }

/-- The same sample holding the 32-bit variant. -/
def omSample32 : OptimizedMesh :=
  { omSample16 with idx_ := IdxVariant.i32 [0, 0, 0] }

/-- Concrete OptimizedMesh for the C3 counterexample. -/
def omSampleC3 : OptimizedMesh :=
  { type := ShaderType.SingleColorShader
    verts := ⟨VertFormat.x12y12, [Vertex.ofPos (0, 0)]⟩
    texture := none
    object_matrix := Mat.ident
    color := default
    mul_color_modifier := default
    add_color_modifier := default
    mbr := ⟨0, 0, 0, 0⟩
    idx_ := IdxVariant.i16 [0, 0, 0] }

/-- A concrete enrichment callback recording its four arguments in the
vertex color. -/
def vfnSample : VertAddFn :=
  fun c r t pr v => { v with color := ⟨r, t, pr, c.1⟩ }

/-- A concrete FatLine with `vfnSample` installed. -/
def flSample : FatLine :=
  { on_add_vert := some vfnSample
    min_screen_travel_threshold := 0
    tip_size := ⟨5, 5⟩
    last_extrude_time := 7
    stylus_state := ⟨1 / 2⟩
    last_center := (3, 4) }

/-- Concrete mesh for the C7 witness: three shared-free vertices, indexed. -/
def meshC7 : Mesh :=
  ⟨[Vertex.ofPos (0, 0), Vertex.ofPos (1, 0), Vertex.ofPos (0, 1)],
   [0, 1, 2], Mat.ident, none⟩

/-- Receiver mesh for the C4 witness (identity transform). -/
def meshA : Mesh := ⟨[Vertex.ofPos (0, 0)], [0, 0, 0], Mat.ident, none⟩

/-- Appended mesh for the C4 witness (2x scale transform, one vertex at
local (1,1)). -/
def meshB : Mesh := ⟨[Vertex.ofPos (1, 1)], [0, 0, 0], ⟨2, 0, 0, 0, 2, 0⟩, none⟩

/-- Concrete mesh for the constructor witnesses of C6. -/
def meshC6 : Mesh :=
  ⟨[Vertex.ofPos (0, 0), Vertex.ofPos (1, 0), Vertex.ofPos (0, 1)],
   [0, 1, 2], ⟨1, 0, 3, 0, 1, 4⟩, none⟩

/-- Concrete envelope for the constructor witnesses of C6. -/
def envC6 : Rect := ⟨0, 0, 1, 1⟩

/-- Concrete mesh for the C10 witness. -/
def meshC10 : Mesh :=
  ⟨[Vertex.ofPos (0, 0), Vertex.ofPos (2, 0), Vertex.ofPos (0, 2)],
   [0, 1, 2], Mat.ident, none⟩

/-- Concrete envelope for the C10 witness. -/
def envC10 : Rect := ⟨0, 0, 2, 2⟩

/-- A single vertex, replicated to build the 65535-vertex counterexample
mesh. -/
def vtxO : Vertex := Vertex.ofPos (0, 0)

/-- A mesh with exactly 65535 vertices: its vertex count is strictly below
65536, yet the constructor picks the 32-bit index variant. -/
def mesh65535 : Mesh :=
  ⟨List.replicate 65535 vtxO, [0, 1, 2], Mat.ident, none⟩

/-! Helper lemmas about the winding-normalization pass. -/

theorem Mat.comp_apply (m n : Mat) (p : Q2) :
    (m.comp n).apply p = m.apply (n.apply p) := by
  simp [Mat.comp, Mat.apply]
  constructor <;> ring

/-- The `t`-th consecutive index triple of an index sequence. -/
def triAt (l : List ℕ) (t : ℕ) : ℕ × ℕ × ℕ :=
  (l.getD (3 * t) 0, l.getD (3 * t + 1) 0, l.getD (3 * t + 2) 0)

theorem signedArea_swap23 (p q r : Q2) : signedArea p r q = -signedArea p q r := by
  simp [signedArea]
  ring

theorem normalizeTriangleHelper_length (pos : ℕ → Q2) :
    ∀ l : List ℕ, (normalizeTriangleHelper pos l).length = l.length
  | [] => rfl
  | [_] => rfl
  | [_, _] => rfl
  | a :: b :: c :: rest => by
    by_cases h : signedArea (pos a) (pos b) (pos c) < 0 <;>
      simp [normalizeTriangleHelper, h, normalizeTriangleHelper_length pos rest]

theorem normalizeTriangleHelper_idem (pos : ℕ → Q2) :
    ∀ l : List ℕ,
      normalizeTriangleHelper pos (normalizeTriangleHelper pos l) =
        normalizeTriangleHelper pos l
  | [] => rfl
  | [_] => rfl
  | [_, _] => rfl
  | a :: b :: c :: rest => by
    by_cases h : signedArea (pos a) (pos b) (pos c) < 0
    · have h2 : ¬ signedArea (pos a) (pos c) (pos b) < 0 := by
        rw [signedArea_swap23]
        linarith
      simp [normalizeTriangleHelper, h, h2, normalizeTriangleHelper_idem pos rest]
    · simp [normalizeTriangleHelper, h, normalizeTriangleHelper_idem pos rest]

theorem triAt_cons3 (a b c : ℕ) (rest : List ℕ) (t : ℕ) :
    triAt (a :: b :: c :: rest) (t + 1) = triAt rest t := by
  have e0 : 3 * (t + 1) = 3 * t + 1 + 1 + 1 := by ring
  have e1 : 3 * (t + 1) + 1 = 3 * t + 1 + 1 + 1 + 1 := by ring
  have e2 : 3 * (t + 1) + 2 = 3 * t + 2 + 1 + 1 + 1 := by ring
  simp [triAt, e0, e1, e2, List.getD_cons_succ]

theorem normalizeTriangleHelper_triAt (pos : ℕ → Q2) :
    ∀ (l : List ℕ) (t : ℕ), 3 * t + 2 < l.length →
      triAt (normalizeTriangleHelper pos l) t =
        (if signedArea (pos (triAt l t).1) (pos (triAt l t).2.1)
            (pos (triAt l t).2.2) < 0 then
          ((triAt l t).1, (triAt l t).2.2, (triAt l t).2.1)
         else triAt l t)
  | [], t, h => by simp at h
  | [_], t, h => by simp at h
  | [_, _], t, h => by simp at h
  | a :: b :: c :: rest, 0, h => by
    by_cases hs : signedArea (pos a) (pos b) (pos c) < 0 <;>
      simp [normalizeTriangleHelper, triAt, hs]
  | a :: b :: c :: rest, t + 1, h => by
    have hlen : 3 * t + 2 < rest.length := by
      simp at h
      omega
    have ih := normalizeTriangleHelper_triAt pos rest t hlen
    by_cases hs : signedArea (pos a) (pos b) (pos c) < 0 <;>
      simp [normalizeTriangleHelper, hs, triAt_cons3, ih]

theorem normalizeTriangleHelper_nonneg (pos : ℕ → Q2) (l : List ℕ) (t : ℕ)
    (h : 3 * t + 2 < l.length) :
    0 ≤ signedArea (pos (triAt (normalizeTriangleHelper pos l) t).1)
        (pos (triAt (normalizeTriangleHelper pos l) t).2.1)
        (pos (triAt (normalizeTriangleHelper pos l) t).2.2) := by
  have hc := normalizeTriangleHelper_triAt pos l t h
  by_cases hs : signedArea (pos (triAt l t).1) (pos (triAt l t).2.1)
      (pos (triAt l t).2.2) < 0
  · rw [hc, if_pos hs]
    simp only
    rw [signedArea_swap23]
    linarith
  · rw [hc, if_neg hs]
    linarith

/-! The claim theorems. -/

/-- C5: for every mesh whose index count is divisible by 3 and whose indices
are in range, NormalizeTriangleOrientation leaves the vertices untouched and
the index count unchanged, leaves every triangle with non-negative signed
area unchanged and swaps the second and third index of every triangle with
negative signed area, makes every triangle's signed area non-negative, and
is idempotent. -/
theorem claimC5_normalize (m : Mesh) (h3 : m.idx.length % 3 = 0)
    (hr : ∀ i ∈ m.idx, i < m.verts.length) :
    (m.normalizeTriangleOrientation).verts = m.verts ∧
    (m.normalizeTriangleOrientation).idx.length = m.idx.length ∧
    (∀ t, 3 * t + 2 < m.idx.length →
      triAt (m.normalizeTriangleOrientation).idx t =
        (if signedArea (m.posAt (triAt m.idx t).1) (m.posAt (triAt m.idx t).2.1)
            (m.posAt (triAt m.idx t).2.2) < 0 then
          ((triAt m.idx t).1, (triAt m.idx t).2.2, (triAt m.idx t).2.1)
         else triAt m.idx t)) ∧
    (∀ t, 3 * t + 2 < m.idx.length →
      0 ≤ signedArea
        (m.posAt (triAt (m.normalizeTriangleOrientation).idx t).1)
        (m.posAt (triAt (m.normalizeTriangleOrientation).idx t).2.1)
        (m.posAt (triAt (m.normalizeTriangleOrientation).idx t).2.2)) ∧
    (m.normalizeTriangleOrientation).normalizeTriangleOrientation =
      m.normalizeTriangleOrientation := by
  refine ⟨rfl, normalizeTriangleHelper_length _ _, ?_, ?_, ?_⟩
  · intro t ht
    exact normalizeTriangleHelper_triAt m.posAt m.idx t ht
  · intro t ht
    exact normalizeTriangleHelper_nonneg m.posAt m.idx t ht
  · exact congrArg (fun l => { m with idx := l })
      (normalizeTriangleHelper_idem m.posAt m.idx)

theorem claimC5_witness :
    (meshC5.normalizeTriangleOrientation).idx.length = meshC5.idx.length ∧
    (meshC5.normalizeTriangleOrientation).normalizeTriangleOrientation =
      meshC5.normalizeTriangleOrientation :=
  ⟨(claimC5_normalize meshC5 (by decide) (by decide)).2.1,
   (claimC5_normalize meshC5 (by decide) (by decide)).2.2.2.2⟩

/-- C2: Index16() on an OptimizedMesh holding the 32-bit index variant fails
explicitly (models RUNTIME_ERROR as `none`) and never returns a truncated
buffer; on an OptimizedMesh holding the 16-bit variant it returns that
buffer unchanged. -/
theorem claimC2_index16 (om : OptimizedMesh) :
    (∀ l, om.idx_ = IdxVariant.i32 l → om.index16 = none) ∧
    (∀ l, om.idx_ = IdxVariant.i16 l → om.index16 = some l) := by
  constructor <;> intro l h <;> simp [OptimizedMesh.index16, h]

theorem claimC2_witness :
    omSample32.index16 = none ∧ omSample16.index16 = some [0, 0, 0] :=
  ⟨(claimC2_index16 omSample32).1 [0, 0, 0] rfl,
   (claimC2_index16 omSample16).2 [0, 0, 0] rfl⟩

/-- C3 counterexample: the claim says ClearCpuMemoryVerts leaves the index
metadata unchanged, but the code resets `idx_` to an empty 16-bit vector:
on a concrete OptimizedMesh holding indices [0, 0, 0] the index variant
changes (its index count drops from 3 to 0). -/
theorem claimC3_counterexample :
    (omSampleC3.clearCpuMemoryVerts).idx_ ≠ omSampleC3.idx_ ∧
    (omSampleC3.clearCpuMemoryVerts).indexSize = 0 ∧
    omSampleC3.indexSize = 3 := by
  refine ⟨?_, rfl, rfl⟩
  decide

/-- C3 amended: ClearCpuMemoryVerts empties the host-side packed vertex
buffer and resets the index variant to an empty 16-bit vector, while
leaving the shader type, base color, color modifiers, texture reference,
transform and bounding rectangle unchanged. -/
theorem claimC3_amended_clear (om : OptimizedMesh) :
    (om.clearCpuMemoryVerts).verts.pverts = [] ∧
    (om.clearCpuMemoryVerts).idx_ = IdxVariant.i16 [] ∧
    (om.clearCpuMemoryVerts).verts.fmt = om.verts.fmt ∧
    (om.clearCpuMemoryVerts).type = om.type ∧
    (om.clearCpuMemoryVerts).color = om.color ∧
    (om.clearCpuMemoryVerts).mul_color_modifier = om.mul_color_modifier ∧
    (om.clearCpuMemoryVerts).add_color_modifier = om.add_color_modifier ∧
    (om.clearCpuMemoryVerts).texture = om.texture ∧
    (om.clearCpuMemoryVerts).object_matrix = om.object_matrix ∧
    (om.clearCpuMemoryVerts).mbr = om.mbr := by
  simp [OptimizedMesh.clearCpuMemoryVerts, PackedVertList.clear]

/-- C9: FatLine::AppendVertex stores, for each appended vertex, the result of
one invocation of the enrichment callback on the freshly constructed vertex
with the last accepted center, the current tip radius, the last extrusion
time and the current stylus pressure; with no callback set it stores the
fresh vertex unmodified. -/
theorem claimC9_appendVertex (fl : FatLine) (dst : List Vertex) (p : Q2)
    (br : Option Rect) :
    (fl.on_add_vert = none →
      (fl.appendVertex dst p br).1 = dst ++ [Vertex.ofPos p]) ∧
    (∀ f, fl.on_add_vert = some f →
      (fl.appendVertex dst p br).1 =
        dst ++ [f fl.last_center fl.tip_size.radius fl.last_extrude_time
          fl.stylus_state.pressure (Vertex.ofPos p)]) := by
  constructor
  · intro h
    simp [FatLine.appendVertex, h]
  · intro f h
    simp [FatLine.appendVertex, h]

/-- C7: Deindex() on an indexed mesh replaces the vertex sequence by one
vertex per index occurrence (the i-th new vertex is the old vertex at the
old i-th index) and empties the index sequence; on an unindexed mesh it is
a no-op; and (for a mesh with no shared vertices) Deindex() followed by
GenIndex() reproduces the same vertex positions per index slot, hence the
same triangles per consecutive index triple. -/
theorem claimC7_deindex (m : Mesh) (hr : ∀ i ∈ m.idx, i < m.verts.length)
    (hnodup : m.idx.Nodup) :
    (m.idx = [] → m.deindex = m) ∧
    (m.idx ≠ [] →
      (m.deindex).verts = m.idx.map (fun i => m.verts.getD i default) ∧
      (m.deindex).idx = []) ∧
    (m.idx ≠ [] → (m.deindex.genIndex).idx = List.range m.idx.length) ∧
    (∀ k, k < m.idx.length →
      ((m.deindex.genIndex).verts.getD ((m.deindex.genIndex).idx.getD k 0)
        default).position =
      (m.verts.getD (m.idx.getD k 0) default).position) := by
  refine ⟨?_, ?_, ?_, ?_⟩
  · intro h
    simp [Mesh.deindex, h]
  · intro h
    simp [Mesh.deindex, h]
  · intro h
    simp [Mesh.deindex, Mesh.genIndex, h]
  · intro k hk
    by_cases h : m.idx = []
    · rw [h] at hk
      simp at hk
    · have hv : (m.deindex.genIndex).verts =
          m.idx.map (fun i => m.verts.getD i default) := by
        simp [Mesh.deindex, Mesh.genIndex, h]
      have hi : (m.deindex.genIndex).idx = List.range m.idx.length := by
        simp [Mesh.deindex, Mesh.genIndex, h]
      rw [hv, hi]
      have hk2 : k < (List.range m.idx.length).length := by simpa using hk
      rw [List.getD_eq_getElem _ _ hk2, List.getElem_range]
      have hk3 : k < (m.idx.map (fun i => m.verts.getD i default)).length := by
        simpa using hk
      rw [List.getD_eq_getElem _ _ hk3, List.getElem_map,
        List.getD_eq_getElem m.idx 0 hk]

theorem claimC7_witness :
    (meshC7.idx = [] → meshC7.deindex = meshC7) ∧
    (meshC7.deindex.genIndex).idx = List.range meshC7.idx.length :=
  ⟨(claimC7_deindex meshC7 (by decide) (by decide)).1,
   (claimC7_deindex meshC7 (by decide) (by decide)).2.2.1 (by decide)⟩

/-- C4: Append(other) leaves the receiver's vertices, indices and transform
in place, appends each vertex of `other` with its position transformed by
`inverse(receiver.object_matrix) * other.object_matrix` (other attributes
unchanged), and appends each index of `other` increased by the receiver's
pre-append vertex count, in order (under the matching index-arity
precondition, and assuming the offset indices fit in uint32). -/
theorem claimC4_append (A B : Mesh)
    (hpre : B.verts = [] ∨ A.verts = [] ∨ (B.idx = [] ↔ A.idx = []))
    (hfit : ∀ i ∈ B.idx, i + A.verts.length < 4294967296) :
    (A.append B).verts.length = A.verts.length + B.verts.length ∧
    (∀ k, k < A.verts.length →
      (A.append B).verts.getD k default = A.verts.getD k default) ∧
    (∀ j, j < B.verts.length →
      (A.append B).verts.getD (A.verts.length + j) default =
        { B.verts.getD j default with
          position := (A.object_matrix.inv.comp B.object_matrix).apply
            (B.verts.getD j default).position }) ∧
    (A.append B).idx = A.idx ++ B.idx.map (fun i => i + A.verts.length) ∧
    (A.append B).object_matrix = A.object_matrix ∧
    (A.append B).texture = A.texture := by
  refine ⟨?_, ?_, ?_, ?_, rfl, rfl⟩
  · simp [Mesh.append]
  · intro k hk
    show (A.verts ++ B.verts.map
      (fun ov : Vertex => { ov with
        position := (A.object_matrix.inv.comp B.object_matrix).apply
          ov.position })).getD k default = A.verts.getD k default
    exact List.getD_append _ _ _ _ hk
  · intro j hj
    show (A.verts ++ B.verts.map
      (fun ov : Vertex => { ov with
        position := (A.object_matrix.inv.comp B.object_matrix).apply
          ov.position })).getD (A.verts.length + j) default = _
    rw [List.getD_append_right _ _ _ _ (Nat.le_add_right _ _),
      Nat.add_sub_cancel_left]
    have hj2 : j < (B.verts.map
        (fun ov : Vertex => { ov with
          position := (A.object_matrix.inv.comp B.object_matrix).apply
            ov.position })).length := by
      simpa using hj
    rw [List.getD_eq_getElem _ _ hj2, List.getElem_map,
      List.getD_eq_getElem B.verts default hj]
  · show A.idx ++ B.idx.map (fun i => u32Mod (i + A.verts.length)) =
      A.idx ++ B.idx.map (fun i => i + A.verts.length)
    congr 1
    refine List.map_congr_left ?_
    intro i hi
    unfold u32Mod
    exact Nat.mod_eq_of_lt (hfit i hi)

theorem claimC4_witness :
    (meshA.append meshB).verts.getD 1 default =
      { Vertex.ofPos (1, 1) with position := ((2 : ℚ), (2 : ℚ)) } ∧
    (meshA.append meshB).idx = [0, 0, 0, 1, 1, 1] := by
  have h := claimC4_append meshA meshB (Or.inr (Or.inr (by decide)))
    (by decide)
  have h1 := h.2.2.1 0 (by decide)
  have e1 : meshA.verts.length + 0 = 1 := by decide
  rw [e1] at h1
  have e2 : { meshB.verts.getD 0 default with
      position := (meshA.object_matrix.inv.comp meshB.object_matrix).apply
        (meshB.verts.getD 0 default).position } =
      { Vertex.ofPos (1, 1) with position := ((2 : ℚ), (2 : ℚ)) } := by
    norm_num [meshA, meshB, Mat.inv, Mat.det, Mat.ident, Mat.comp, Mat.apply,
      Vertex.ofPos]
  rw [e2] at h1
  have h2 := h.2.2.2.1
  have e3 : meshA.idx ++ meshB.idx.map (fun i => i + meshA.verts.length) =
      [0, 0, 0, 1, 1, 1] := by decide
  rw [e3] at h2
  exact ⟨h1, h2⟩

theorem claimC9_witness :
    (flSample.appendVertex [] (9, 9) none).1 =
      [{ Vertex.ofPos (9, 9) with color := ⟨5, 7, 1 / 2, 3⟩ }] := by
  have h := (claimC9_appendVertex flSample [] (9, 9) none).2 vfnSample rfl
  rw [h]
  rfl

/-- When the packing constructor's EXPECT preconditions hold, it succeeds,
and its result is the default-extraction of its own optional value.  Shared
helper for instantiating the constructor-based theorems on concrete
meshes. -/
theorem ofMeshEnv_eq_some_getD (type : ShaderType) (mesh : Mesh)
    (envelope : Rect)
    (hc : mesh.idx ≠ [] ∧ mesh.idx.length % 3 = 0 ∧ mesh.verts ≠ []) :
    OptimizedMesh.ofMeshEnv type mesh envelope =
      some ((OptimizedMesh.ofMeshEnv type mesh envelope).getD default) := by
  unfold OptimizedMesh.ofMeshEnv
  simp only [if_pos hc]
  rfl

/-- C6: the object-to-world transform stored by the packing constructor is
the source mesh's object matrix composed with the inverse of the
quantization transform derived from the envelope and the shader type's
vertex format. -/
theorem claimC6_object_matrix (type : ShaderType) (mesh : Mesh)
    (envelope : Rect) (om : OptimizedMesh)
    (h : OptimizedMesh.ofMeshEnv type mesh envelope = some om) :
    om.object_matrix =
      mesh.object_matrix.comp
        ((calcTransformForFormat envelope (vertexFormat type)).inv) := by
  unfold OptimizedMesh.ofMeshEnv at h
  split at h
  · rw [Option.some.injEq] at h
    subst h
    rfl
  · simp at h

theorem claimC6_witness :
    ((OptimizedMesh.ofMeshEnv ShaderType.SingleColorShader meshC6
        envC6).getD default).object_matrix =
      meshC6.object_matrix.comp
        ((calcTransformForFormat envC6
          (vertexFormat ShaderType.SingleColorShader)).inv) :=
  claimC6_object_matrix ShaderType.SingleColorShader meshC6 envC6 _
    (ofMeshEnv_eq_some_getD _ _ _ ⟨by decide, by decide, by decide⟩)

/-- C8: ToMesh() on a constructed OptimizedMesh produces a raw mesh with one
vertex per packed vertex and the same index count as the packed index
variant; each output color is the unpacked color (overridden by the base
color for SingleColorShader) times the multiplicative modifier plus the
additive modifier; the output carries the stored object matrix and texture
reference. -/
theorem claimC8_toMesh (type : ShaderType) (mesh : Mesh) (envelope : Rect)
    (om : OptimizedMesh)
    (h : OptimizedMesh.ofMeshEnv type mesh envelope = some om) :
    om.toMesh.verts.length = om.verts.size ∧
    om.toMesh.idx.length = om.indexSize ∧
    (∀ i, i < om.verts.size →
      (om.toMesh.verts.getD i default).color =
        ((if om.type = ShaderType.SingleColorShader then om.color
          else (om.verts.unpackVertex i).color).cmul
            om.mul_color_modifier).cadd om.add_color_modifier) ∧
    om.toMesh.object_matrix = om.object_matrix ∧
    om.toMesh.texture = om.texture := by
  refine ⟨?_, ?_, ?_, rfl, rfl⟩
  · simp [OptimizedMesh.toMesh]
  · show om.indexList.length = om.indexSize
    cases hix : om.idx_ <;>
      simp [OptimizedMesh.indexList, OptimizedMesh.indexSize, hix]
  · intro i hi
    show (((List.range om.verts.size).map (fun i =>
        let v := om.verts.unpackVertex i
        let v :=
          if om.type = ShaderType.SingleColorShader then
            { v with color := om.color }
          else v
        { v with
          color := (v.color.cmul om.mul_color_modifier).cadd
            om.add_color_modifier })).getD i default).color = _
    have hi2 : i < ((List.range om.verts.size).map (fun i =>
        let v := om.verts.unpackVertex i
        let v :=
          if om.type = ShaderType.SingleColorShader then
            { v with color := om.color }
          else v
        { v with
          color := (v.color.cmul om.mul_color_modifier).cadd
            om.add_color_modifier })).length := by
      simpa using hi
    rw [List.getD_eq_getElem _ _ hi2, List.getElem_map, List.getElem_range]
    by_cases ht : om.type = ShaderType.SingleColorShader <;> simp [ht]

theorem claimC8_witness :
    ((OptimizedMesh.ofMeshEnv ShaderType.EraseShader meshC6 envC6).getD
        default).toMesh.verts.length =
      ((OptimizedMesh.ofMeshEnv ShaderType.EraseShader meshC6 envC6).getD
        default).verts.size ∧
    ((OptimizedMesh.ofMeshEnv ShaderType.EraseShader meshC6 envC6).getD
        default).toMesh.texture =
      ((OptimizedMesh.ofMeshEnv ShaderType.EraseShader meshC6 envC6).getD
        default).texture :=
  ⟨(claimC8_toMesh ShaderType.EraseShader meshC6 envC6 _
      (ofMeshEnv_eq_some_getD _ _ _ ⟨by decide, by decide, by decide⟩)).1,
   (claimC8_toMesh ShaderType.EraseShader meshC6 envC6 _
      (ofMeshEnv_eq_some_getD _ _ _ ⟨by decide, by decide, by decide⟩)).2.2.2.2⟩

/-- C10: the packing constructor's precondition is exactly a non-empty
vertex sequence and a non-empty index sequence whose length is divisible by
3 (violations are contract failures), and under that precondition the
post-construction validation (index count, if nonzero, divisible by 3)
cannot fail. -/
theorem claimC10_precondition (type : ShaderType) (mesh : Mesh)
    (envelope : Rect) :
    ((OptimizedMesh.ofMeshEnv type mesh envelope).isSome = true ↔
      (mesh.verts ≠ [] ∧ mesh.idx ≠ [] ∧ mesh.idx.length % 3 = 0)) ∧
    (∀ om, OptimizedMesh.ofMeshEnv type mesh envelope = some om →
      om.indexSize = mesh.idx.length ∧ om.validate = true) := by
  constructor
  · unfold OptimizedMesh.ofMeshEnv
    by_cases hc : (mesh.idx ≠ [] ∧ mesh.idx.length % 3 = 0 ∧
        mesh.verts ≠ [])
    · rw [if_pos hc]
      simp only [Option.isSome_some, true_iff]
      exact ⟨hc.2.2, hc.1, hc.2.1⟩
    · rw [if_neg hc]
      simp only [Option.isSome_none, Bool.false_eq_true, false_iff]
      intro hrhs
      exact absurd ⟨hrhs.2.1, hrhs.2.2, hrhs.1⟩ hc
  · intro om h
    have hsz : om.indexSize = mesh.idx.length := by
      unfold OptimizedMesh.ofMeshEnv at h
      split at h
      case isTrue hc =>
        rw [Option.some.injEq] at h
        subst h
        by_cases hlen : mesh.verts.length < kMax16 <;>
          simp [OptimizedMesh.indexSize, hlen,
            normalizeTriangleHelper_length]
      case isFalse hc =>
        simp at h
    refine ⟨hsz, ?_⟩
    unfold OptimizedMesh.validate
    rw [hsz]
    unfold OptimizedMesh.ofMeshEnv at h
    split at h
    case isTrue hc =>
      rw [hc.2.1]
      simp
    case isFalse hc =>
      simp at h

theorem claimC10_witness :
    ((OptimizedMesh.ofMeshEnv ShaderType.EraseShader meshC10
        envC10).isSome = true ↔
      (meshC10.verts ≠ [] ∧ meshC10.idx ≠ [] ∧
        meshC10.idx.length % 3 = 0)) ∧
    ((OptimizedMesh.ofMeshEnv ShaderType.EraseShader meshC10 envC10).getD
        default).validate = true :=
  ⟨(claimC10_precondition ShaderType.EraseShader meshC10 envC10).1,
   ((claimC10_precondition ShaderType.EraseShader meshC10 envC10).2 _
      (ofMeshEnv_eq_some_getD _ _ _ ⟨by decide, by decide, by decide⟩)).2⟩

/-- C1 amended: the 16-bit index variant is chosen iff the vertex count is
strictly below 65535 (kMax16, the largest uint16 value) — not 65536 as the
claim states — and the source indices are carried into the chosen variant
with count preserved and only the winding pass's within-triangle swaps
applied (exactly the embedding `normalizeTriangleHelper` of that pass over
the quantized positions). -/
theorem claimC1_index_width (type : ShaderType) (mesh : Mesh)
    (envelope : Rect) (om : OptimizedMesh)
    (h : OptimizedMesh.ofMeshEnv type mesh envelope = some om)
    (hr : ∀ i ∈ mesh.idx, i < mesh.verts.length) :
    (om.is16Bit = true ↔ mesh.verts.length < kMax16) ∧
    om.indexList =
      normalizeTriangleHelper
        (fun i => (om.verts.unpackVertex i).position) mesh.idx ∧
    om.indexList.length = mesh.idx.length := by
  unfold OptimizedMesh.ofMeshEnv at h
  split at h
  case isTrue hc =>
    rw [Option.some.injEq] at h
    subst h
    by_cases hlen : mesh.verts.length < kMax16
    · have hmap : mesh.idx.map u16Mod = mesh.idx := by
        conv_rhs => rw [← List.map_id mesh.idx]
        refine List.map_congr_left ?_
        intro i hi
        have hi2 : i < mesh.verts.length := hr i hi
        have hi3 : i < 65536 := by
          unfold kMax16 at hlen
          omega
        unfold u16Mod
        simp [Nat.mod_eq_of_lt hi3]
      refine ⟨?_, ?_, ?_⟩
      · simp [OptimizedMesh.is16Bit, hlen]
      · show OptimizedMesh.indexList _ = _
        simp only [OptimizedMesh.indexList, hlen, if_pos, hmap]
      · show (OptimizedMesh.indexList _).length = _
        simp only [OptimizedMesh.indexList, hlen, if_pos, hmap]
        rw [normalizeTriangleHelper_length]
    · refine ⟨?_, ?_, ?_⟩
      · simp [OptimizedMesh.is16Bit, hlen]
      · show OptimizedMesh.indexList _ = _
        simp [OptimizedMesh.indexList, hlen]
      · show (OptimizedMesh.indexList _).length = _
        simp [OptimizedMesh.indexList, hlen,
          normalizeTriangleHelper_length]
  case isFalse hc =>
    simp at h

theorem claimC1_witness :
    ((((OptimizedMesh.ofMeshEnv ShaderType.EraseShader meshC10
        envC10).getD default).is16Bit = true) ↔
      meshC10.verts.length < kMax16) ∧
    ((OptimizedMesh.ofMeshEnv ShaderType.EraseShader meshC10 envC10).getD
        default).indexList.length = meshC10.idx.length :=
  ⟨(claimC1_index_width ShaderType.EraseShader meshC10 envC10 _
      (ofMeshEnv_eq_some_getD _ _ _ ⟨by decide, by decide, by decide⟩)
      (by decide)).1,
   (claimC1_index_width ShaderType.EraseShader meshC10 envC10 _
      (ofMeshEnv_eq_some_getD _ _ _ ⟨by decide, by decide, by decide⟩)
      (by decide)).2.2⟩

/-- C1 counterexample: the claim says the 16-bit variant is chosen iff the
vertex count is strictly less than 65536, but constructing from a mesh with
65535 vertices (65535 < 65536) yields the 32-bit variant, because the code
compares against kMax16 = 65535. -/
theorem claimC1_counterexample :
    mesh65535.verts.length < 65536 ∧
    (OptimizedMesh.ofMeshEnv ShaderType.EraseShader mesh65535
        ⟨0, 0, 1, 1⟩).map OptimizedMesh.is16Bit = some false := by
  have hlen : mesh65535.verts.length = 65535 := by
    show (List.replicate 65535 vtxO).length = 65535
    rw [List.length_replicate]
  constructor
  · rw [hlen]
    decide
  · have hc : mesh65535.idx ≠ [] ∧ mesh65535.idx.length % 3 = 0 ∧
        mesh65535.verts ≠ [] := ⟨by decide, by decide, by decide⟩
    have hnot : ¬ mesh65535.verts.length < kMax16 := by
      rw [hlen]
      decide
    unfold OptimizedMesh.ofMeshEnv
    rw [if_pos hc, if_neg hnot]
    simp [OptimizedMesh.is16Bit]

end Ink
